import Mathlib

/-!
# AbdulChicken backend: order intake and referral bookkeeping

A shallow embedding of `src/backend/server.js`.

* Request bodies are JSON, so every body field is a `JsVal`; a missing field is
  `JsVal.undefined`.
* A JavaScript number is identified with the decimal `digits * 10 ^ exp` that
  `Number::toString` prints for it (the shortest decimal that reads back as the same
  double), so that string coercion is a plain formatting function.
* A handler body runs inside `try { ... } catch`: an exception thrown by the handler code
  itself (a property read on `null`, a coercion that throws) is modelled, and answers 500.
* The document store (MongoDB through mongoose) is an in-memory collection; identifiers
  are natural numbers handed out by a counter.  Three rejections of the storage layer are
  modelled, each answered 500 by the outer catch: the cast of a path segment to an
  ObjectId by `findById`, the schema casts when a new document is saved (lines 43-87),
  and the cast of the filter of `findOne`.  Connection failures are not modelled.
* What a handler reads from its surroundings (clock, random source, mail transport) is
  passed in as an `Env`.
-/

namespace AbdulChicken

/-! ## JavaScript values -/

/-- JavaScript numbers: `fin neg digits exp` is the number `(-1)^neg * digits * 10^exp`. -/
inductive JsNumber where
  | nan
  | inf (neg : Bool)
  | fin (neg : Bool) (digits : Nat) (exp : Int)

/-- Values a parsed JSON body can hold, plus `undefined` for an absent property. -/
inductive JsVal where
  | undefined
  | null
  | bool (b : Bool)
  | num (n : JsNumber)
  | str (s : String)
  | arr (xs : List JsVal)
  | obj (props : List (String × JsVal))

/-- Removes the trailing zero digits of a digit list. -/
def stripZeros (ds : List Char) : List Char :=
  (ds.reverse.dropWhile (fun c => c == '0')).reverse

/-- Exponent part of the scientific rendering: `e+21`, `e-7`, ... -/
def exponentChars (e : Int) : List Char :=
  ['e', if e < 0 then '-' else '+'] ++ Nat.toDigits 10 e.natAbs

/-- Rendering `Number::toString(x)` in radix 10 (ECMA-262, 6.1.6.1.20). -/
def numberToString : JsNumber → String
  | .nan => "NaN"
  | .inf neg => if neg then "-Infinity" else "Infinity"
  | .fin neg m e =>
    if m = 0 then "0"
    else
      let all := Nat.toDigits 10 m
      let ds := stripZeros all
      let k : Int := ds.length
      let n : Int := e + all.length
      let body : List Char :=
        if k ≤ n ∧ n ≤ 21 then ds ++ List.replicate (n - k).toNat '0'
        else if 0 < n ∧ n ≤ 21 then ds.take n.toNat ++ ['.'] ++ ds.drop n.toNat
        else if -6 < n ∧ n ≤ 0 then ['0', '.'] ++ List.replicate (-n).toNat '0' ++ ds
        else if ds.length = 1 then ds ++ exponentChars (n - 1)
        else ds.take 1 ++ ['.'] ++ ds.drop 1 ++ exponentChars (n - 1)
      String.mk ((if neg then ['-'] else []) ++ body)

/-- Whether an object literal has an own property `key`. -/
def hasOwn (key : String) (props : List (String × JsVal)) : Bool :=
  props.any (fun kv => kv.1 == key)

mutual
/-- Whether the coercions `ToString(v)` and `ToNumber(v)` complete.  On an object parsed
from JSON, `OrdinaryToPrimitive` finds an own `toString` property that is not callable,
gets the object back from the inherited `valueOf`, and throws a `TypeError`; without the
own property the inherited `toString` answers.  An array is joined, coercing each
element. -/
def coercible : JsVal → Bool
  | .arr xs => coercibleAll xs
  | .obj props => !hasOwn "toString" props
  | _ => true
/-- Whether every element of an array can be coerced. -/
def coercibleAll : List JsVal → Bool
  | [] => true
  | x :: xs => coercible x && coercibleAll xs
end

mutual
/-- The string `ToString(v)` when the coercion completes (see `coercible`): what a
template literal or `RegExp.prototype.test` sees. -/
def toStringJs : JsVal → String
  | .undefined => "undefined"
  | .null => "null"
  | .bool b => if b then "true" else "false"
  | .num n => numberToString n
  | .str s => s
  | .arr xs => joinJs xs
  | .obj _ => "[object Object]"
/-- Rendering `Array.prototype.join(",")`: `null` and `undefined` elements print as empty. -/
def joinJs : List JsVal → String
  | [] => ""
  | [x] => elementString x
  | x :: y :: rest => elementString x ++ "," ++ joinJs (y :: rest)
/-- One element of a joined array. -/
def elementString : JsVal → String
  | .undefined => ""
  | .null => ""
  | .bool b => if b then "true" else "false"
  | .num n => numberToString n
  | .str s => s
  | .arr xs => joinJs xs
  | .obj _ => "[object Object]"
end

/-- Truthiness, the negation of `!v`. -/
def truthy : JsVal → Bool
  | .undefined => false
  | .null => false
  | .bool b => b
  | .num .nan => false
  | .num (.inf _) => true
  | .num (.fin _ m _) => m != 0
  | .str s => s != ""
  | .arr _ => true
  | .obj _ => true

/-- The test `Array.isArray(v)`. -/
def isArray : JsVal → Bool
  | .arr _ => true
  | _ => false

/-- The test `typeof v === 'string'`. -/
def isString : JsVal → Bool
  | .str _ => true
  | _ => false

/-- The test `typeof v === 'number'`. -/
def isNumber : JsVal → Bool
  | .num _ => true
  | _ => false

/-- The comparison `x <= 0` on numbers (false for `NaN`). -/
def JsNumber.leZero : JsNumber → Bool
  | .nan => false
  | .inf neg => neg
  | .fin neg m _ => neg || m == 0

/-! ## Regular expressions used by the handlers -/

/-- Quantifier of one regular-expression atom. -/
inductive Quant where
  | exactly (n : Nat)
  | oneOrMore

/-- A character class with its quantifier. -/
structure Piece where
  cls : Char → Bool
  quant : Quant

/-- Whole-input match (`^ ... $`, no flags) of a sequence of quantified classes. -/
def matchPieces : List Piece → List Char → Bool
  | [], cs => cs.isEmpty
  | ⟨p, .exactly n⟩ :: ps, cs =>
    decide (n ≤ cs.length) && (cs.take n).all p && matchPieces ps (cs.drop n)
  | ⟨p, .oneOrMore⟩ :: ps, cs =>
    (List.range cs.length).any fun k =>
      (cs.take (k + 1)).all p && matchPieces ps (cs.drop (k + 1))

/-- Class `[0-9]`. -/
def isDigit09 (c : Char) : Bool := decide ('0' ≤ c) && decide (c ≤ '9')

/-- Class `\s` of ECMAScript: white space and line terminators. -/
def isJsSpace (c : Char) : Bool :=
  let n := c.toNat
  decide (9 ≤ n ∧ n ≤ 13) || n == 0x20 || n == 0xA0 || n == 0x1680 ||
    decide (0x2000 ≤ n ∧ n ≤ 0x200A) || n == 0x2028 || n == 0x2029 || n == 0x202F ||
    n == 0x205F || n == 0x3000 || n == 0xFEFF

/-- Class `[^\s@]`. -/
def notSpaceNorAt (c : Char) : Bool := !isJsSpace c && c != '@'

/-- Pattern `/^[0-9]{10}$/` (server.js line 104). -/
def mobilePattern : List Piece := [⟨isDigit09, .exactly 10⟩]

/-- Pattern `/^[^\s@]+@[^\s@]+\.[^\s@]+$/` (server.js line 280). -/
def emailPattern : List Piece :=
  [⟨notSpaceNorAt, .oneOrMore⟩, ⟨fun c => c == '@', .exactly 1⟩,
   ⟨notSpaceNorAt, .oneOrMore⟩, ⟨fun c => c == '.', .exactly 1⟩,
   ⟨notSpaceNorAt, .oneOrMore⟩]

/-- Call `pattern.test(v)`: the argument is coerced with `ToString` first; `none` is the
`TypeError` of a coercion that throws. -/
def regexTest (pattern : List Piece) (v : JsVal) : Option Bool :=
  if coercible v then some (matchPieces pattern (toStringJs v).toList) else none

/-! ## Data model (server.js lines 42-89) -/

/-- Order status enum of `orderSchema`. -/
inductive OrderStatus where
  | Pending
  | Accepted
  | Rejected
  | Delivered
  deriving DecidableEq, Repr

/-- Referral status enum of `referralSchema`. -/
inductive ReferralStatus where
  | Pending
  | Completed
  deriving DecidableEq, Repr

/-- One cleaned cart line (server.js lines 114-121). -/
structure CartItem where
  id : JsVal
  name : JsVal
  price : JsNumber
  quantity : JsNumber
  image : JsVal
  category : JsVal

/-- An order document; `deliveredAt = none` is the unset date. -/
structure Order where
  id : Nat
  cartItems : List CartItem
  deliveryAddress : JsVal
  mobileNumber : JsVal
  altMobileNumber : JsVal
  paymentMethod : JsVal
  totalPrice : JsVal
  status : OrderStatus
  deliveredAt : Option Nat
  createdAt : Nat

/-- A referral document; `discountCode = none` is the unset string. -/
structure Referral where
  id : Nat
  referrerId : String
  referralCode : Option String
  referredEmail : JsVal
  status : ReferralStatus
  reward : String
  discountCode : Option String
  claimed : Bool
  createdAt : Nat

/-- The two collections and the identifier counter of the storage layer. -/
structure Store where
  orders : List Order
  referrals : List Referral
  nextId : Nat

/-- The store before any request. -/
def Store.empty : Store := { orders := [], referrals := [], nextId := 0 }

/-- Built-ins whose results depend on parsing done outside the handlers. -/
structure JsRuntime where
  /-- Conversion `StringToNumber`, used by `Number(v)` on strings. -/
  stringToNumber : String → JsNumber
  /-- Result of `new URL(link).searchParams.get('ref')`: `none` when the constructor
  throws, `some none` when the link has no `ref` parameter. -/
  refParam : JsVal → Option (Option String)
  /-- Cast of a path segment by `findById`: `none` is the `CastError` mongoose raises
  for a segment that is not an ObjectId. -/
  castObjectId : String → Option Nat
  /-- The filter mongoose builds from `{ referralCode }` when the value is an array or an
  object (an `$in` list, query operators), as a test on a stored code; `none` when the
  cast rejects. -/
  castFilter : JsVal → Option (Option String → Bool)

/-- What one request reads from its surroundings. -/
structure Env where
  /-- Current time, `Date.now()`. -/
  now : Nat
  /-- The string `Math.random().toString(36)`. -/
  random36 : String
  /-- Whether `transporter.sendMail` resolves. -/
  mailOk : Bool

/-- Body of `POST /api/orders` (server.js line 96). -/
structure OrderRequest where
  cartItems : JsVal
  deliveryAddress : JsVal
  mobileNumber : JsVal
  altMobileNumber : JsVal
  paymentMethod : JsVal
  totalPrice : JsVal
  referralCode : JsVal

/-- Body of `POST /api/referrals/send` (server.js line 278). -/
structure ReferralRequest where
  friendEmail : JsVal
  referralLink : JsVal

/-- JSON payload of a response, without the `success` flag (it is `status = 200`). -/
inductive Payload where
  | error (error : String)
  | message (message : String)
  | orderPlaced (message : String) (orderId : Nat)
  | orders (orders : List Order)
  | rewards (rewards : List Referral)
  | rewardClaimed (message : String) (discountCode : String)

/-- HTTP status and payload. -/
structure Response where
  status : Nat
  payload : Payload

/-- The response of every outer `catch` block. -/
def internalError : Response := ⟨500, .error "Internal server error"⟩

/-! ## Order submission (server.js lines 92-178) -/

/-- Outcome of the validation guards. -/
inductive Checked where
  | passed
  | rejected (error : String)
  | threw
  deriving DecidableEq

/-- The test `cartItems.length === 0`, evaluated on arrays only. -/
def lengthIsZero : JsVal → Bool
  | .arr xs => xs.length == 0
  | _ => false

/-- The test `paymentMethod !== 'cod'`. -/
def notCod : JsVal → Bool
  | .str s => s != "cod"
  | _ => true

/-- The test `totalPrice <= 0`, evaluated on numbers only. -/
def leZero : JsVal → Bool
  | .num n => n.leZero
  | _ => false

/-- The five guards of lines 98-112: the first one that fires rejects with its message;
the pattern test of the third guard may throw. -/
def validateOrder (req : OrderRequest) : Checked :=
  if !truthy req.cartItems || !isArray req.cartItems || lengthIsZero req.cartItems then
    .rejected "Cart items are required"
  else if !truthy req.deliveryAddress || !isString req.deliveryAddress then
    .rejected "Delivery address is required"
  else if !truthy req.mobileNumber then
    .rejected "Valid mobile number is required"
  else
    match regexTest mobilePattern req.mobileNumber with
    | none => .threw
    | some false => .rejected "Valid mobile number is required"
    | some true =>
      if !truthy req.paymentMethod || notCod req.paymentMethod then
        .rejected "Payment method must be COD"
      else if !isNumber req.totalPrice || leZero req.totalPrice then
        .rejected "Valid total price is required"
      else .passed

/-- Property read `item.key`: `none` is the `TypeError` of reading from `null` or
`undefined`; the keys read here are own properties only on objects. -/
def getProp (item : JsVal) (key : String) : Option JsVal :=
  match item with
  | .undefined => none
  | .null => none
  | .obj props => some ((props.lookup key).getD .undefined)
  | _ => some .undefined

/-- Conversion `Number(v)`; `none` is the `TypeError` of a coercion that throws. -/
def toNumber (rt : JsRuntime) : JsVal → Option JsNumber
  | .undefined => some .nan
  | .null => some (.fin false 0 0)
  | .bool b => some (if b then .fin false 1 0 else .fin false 0 0)
  | .num n => some n
  | .str s => some (rt.stringToNumber s)
  | .arr xs =>
    if coercible (.arr xs) then some (rt.stringToNumber (toStringJs (.arr xs))) else none
  | .obj props =>
    if coercible (.obj props) then some (rt.stringToNumber (toStringJs (.obj props)))
    else none

/-- The callback of `cartItems.map` at lines 114-121. -/
def cleanItem (rt : JsRuntime) (item : JsVal) : Option CartItem := do
  let id ← getProp item "id"
  let name ← getProp item "name"
  let price ← getProp item "price"
  let priceNumber ← toNumber rt price
  let quantity ← getProp item "quantity"
  let quantityNumber ← toNumber rt quantity
  let image ← getProp item "image"
  let category ← getProp item "category"
  pure { id := id, name := name, price := priceNumber, quantity := quantityNumber,
         image := image, category := category }

/-- The map over the cart: stops at the first callback that throws. -/
def cleanItems (rt : JsRuntime) : List JsVal → Option (List CartItem)
  | [] => some []
  | item :: rest =>
    match cleanItem rt item with
    | none => none
    | some c =>
      match cleanItems rt rest with
      | none => none
      | some cs => some (c :: cs)

/-- The map `cartItems.map(...)` on the body field. -/
def cleanCartItems (rt : JsRuntime) : JsVal → Option (List CartItem)
  | .arr xs => cleanItems rt xs
  | _ => none

/-- Whether the template of line 144 can be filled for one item: it coerces
`item.name`, `item.quantity` and the product `item.price * item.quantity`. -/
def itemLineBuilds (item : JsVal) : Bool :=
  match getProp item "name", getProp item "quantity", getProp item "price" with
  | some name, some quantity, some price =>
    coercible name && coercible quantity && coercible price
  | _, _, _ => false

/-- Whether the email body of lines 144-159 can be built without a `TypeError`; its
text is not part of the state or of the response and is not modelled. -/
def emailBodyBuilds (req : OrderRequest) : Bool :=
  (match req.cartItems with
    | .arr xs => xs.all itemLineBuilds
    | _ => false) &&
  (!truthy req.altMobileNumber || coercible req.altMobileNumber)

/-- The test `isNaN(x)` on numbers. -/
def JsNumber.isNaN : JsNumber → Bool
  | .nan => true
  | _ => false

/-- Whether mongoose casts a value to a `String` path (`castString`): `null` and
`undefined` are kept, strings, numbers and booleans are cast through `toString`, an object
only through an own non-empty string `_id`; arrays and other objects are a `CastError`,
which `save()` reports as a validation error. -/
def castsToString : JsVal → Bool
  | .undefined => true
  | .null => true
  | .bool _ => true
  | .num _ => true
  | .str _ => true
  | .arr _ => false
  | .obj props =>
    match props.lookup "_id" with
    | some (.str id) => id != ""
    | _ => false

/-- Whether mongoose casts a value to a `Number` path (`castNumber`): `null`,
`undefined` and the empty string are kept as unset, strings and booleans go through
`Number(v)`, and `NaN` is a `CastError`; so are arrays and objects parsed from JSON. -/
def castsToNumber (rt : JsRuntime) : JsVal → Bool
  | .undefined => true
  | .null => true
  | .bool _ => true
  | .num n => !n.isNaN
  | .str s => s == "" || !(rt.stringToNumber s).isNaN
  | .arr _ => false
  | .obj _ => false

/-- Whether the cart sub-schema (lines 44-53) accepts a cleaned item. -/
def schemaAcceptsItem (item : CartItem) : Bool :=
  castsToString item.id && castsToString item.name && !item.price.isNaN &&
    !item.quantity.isNaN && castsToString item.image && castsToString item.category

/-- Whether `orderSchema` (lines 43-66) accepts a new order, that is whether
`order.save()` at line 132 resolves. -/
def schemaAcceptsOrder (rt : JsRuntime) (o : Order) : Bool :=
  o.cartItems.all schemaAcceptsItem && castsToString o.deliveryAddress &&
    castsToString o.mobileNumber && castsToString o.altMobileNumber &&
    castsToString o.paymentMethod && castsToNumber rt o.totalPrice

/-- Whether `referralSchema` (lines 71-87) accepts a new referral, that is whether
`referral.save()` at line 294 resolves. -/
def schemaAcceptsReferral (r : Referral) : Bool := castsToString r.referredEmail

/-- Characters `start .. start + len - 1` of a string: `s.substr(start, len)`. -/
def substr (s : String) (start len : Nat) : String :=
  String.mk ((s.toList.drop start).take len)

/-- Upper-casing `s.toUpperCase()` on the characters a base-36 rendering holds. -/
def toUpperCase (s : String) : String :=
  String.mk (s.toList.map Char.toUpper)

/-- The discount code of lines 139 and 357, from the string `Math.random().toString(36)`. -/
def generateDiscountCode (random36 : String) : String :=
  "DISCOUNT" ++ toUpperCase (substr random36 2 8)

/-- Replaces the first element satisfying `p` by `new`. -/
def replaceFirst {α : Type} (p : α → Bool) (new : α) : List α → List α
  | [] => []
  | x :: xs => if p x then new :: xs else x :: replaceFirst p new xs

/-- The order stored under an identifier, if any. -/
def findOrder (s : Store) (id : Nat) : Option Order :=
  s.orders.find? (fun o => o.id == id)

/-- Lookup `Order.findById(orderId)` on a path segment: `none` is the rejection with a
`CastError`, `some none` the result `null`. -/
def findOrderById (rt : JsRuntime) (s : Store) (orderId : String) : Option (Option Order) :=
  match rt.castObjectId orderId with
  | none => none
  | some id => some (findOrder s id)

/-- Write-back `order.save()` of a fetched order. -/
def saveOrder (s : Store) (o : Order) : Store :=
  { s with orders := replaceFirst (fun x => x.id == o.id) o s.orders }

/-- The referral stored under an identifier, if any. -/
def findReferral (s : Store) (id : Nat) : Option Referral :=
  s.referrals.find? (fun r => r.id == id)

/-- Lookup `Referral.findById(rewardId)` on a path segment: `none` is the rejection with
a `CastError`, `some none` the result `null`. -/
def findReferralById (rt : JsRuntime) (s : Store) (rewardId : String) :
    Option (Option Referral) :=
  match rt.castObjectId rewardId with
  | none => none
  | some id => some (findReferral s id)

/-- The first referral carrying a code: what `Referral.findOne({ referralCode })` returns
for a string code. -/
def findReferralByCode (s : Store) (code : String) : Option Referral :=
  s.referrals.find? (fun r => r.referralCode == some code)

/-- Write-back `referral.save()` of a fetched referral. -/
def saveReferral (s : Store) (r : Referral) : Store :=
  { s with referrals := replaceFirst (fun x => x.id == r.id) r s.referrals }

/-- The test on stored codes that the filter `{ referralCode }` of line 136 stands for:
a string selects its equals, a number or boolean is cast to its string first; `none` is
a filter the cast rejects. -/
def codeFilter (rt : JsRuntime) : JsVal → Option (Option String → Bool)
  | .str code => some (fun c => c == some code)
  | .num n => some (fun c => c == some (numberToString n))
  | .bool b => some (fun c => c == some (if b then "true" else "false"))
  | v => rt.castFilter v

/-- Lines 134-142: complete the referral found for a supplied code; `none` is a lookup
that rejects. -/
def completeReferral (rt : JsRuntime) (env : Env) (s : Store) (referralCode : JsVal) :
    Option Store :=
  if !truthy referralCode then some s
  else
    match codeFilter rt referralCode with
    | none => none
    | some selects =>
      match s.referrals.find? (fun r => selects r.referralCode) with
      | none => some s
      | some referral =>
        if referral.status = .Pending then
          some (saveReferral s { referral with
            status := .Completed
            discountCode := some (generateDiscountCode env.random36) })
        else some s

/-- The document `new Order({...})` of lines 123-131, with the schema defaults. -/
def newOrder (env : Env) (id : Nat) (req : OrderRequest) (cleaned : List CartItem) : Order :=
  { id := id, cartItems := cleaned, deliveryAddress := req.deliveryAddress,
    mobileNumber := req.mobileNumber, altMobileNumber := req.altMobileNumber,
    paymentMethod := req.paymentMethod, totalPrice := req.totalPrice,
    status := .Pending, deliveredAt := none, createdAt := env.now }

/-- The store after a resolved `order.save()` (line 132). -/
def saveNewOrder (env : Env) (s : Store) (req : OrderRequest) (cleaned : List CartItem) :
    Store :=
  { s with
    orders := s.orders ++ [newOrder env s.nextId req cleaned]
    nextId := s.nextId + 1 }

/-- Handler `POST /api/orders`. -/
def submitOrder (rt : JsRuntime) (env : Env) (s : Store) (req : OrderRequest) :
    Store × Response :=
  match validateOrder req with
  | .rejected msg => (s, ⟨400, .error msg⟩)
  | .threw => (s, internalError)
  | .passed =>
    match cleanCartItems rt req.cartItems with
    | none => (s, internalError)
    | some cleaned =>
      -- line 132: a document the schema rejects makes `save()` reject, nothing is stored
      if !schemaAcceptsOrder rt (newOrder env s.nextId req cleaned) then (s, internalError)
      else
        let saved := saveNewOrder env s req cleaned
        -- line 136: a rejected lookup reaches the outer catch after the order is stored
        match completeReferral rt env saved req.referralCode with
        | none => (saved, internalError)
        | some completed =>
          -- lines 144-159: a coercion that throws here reaches the outer catch as well
          if !emailBodyBuilds req then (completed, internalError)
          else
            let ok : Response :=
              ⟨200, .orderPlaced "Order placed successfully"
                (newOrder env s.nextId req cleaned).id⟩
            -- lines 161-171: a failed notification is logged and swallowed
            if env.mailOk then (completed, ok) else (completed, ok)

/-- Handler `GET /api/orders/pending`. -/
def listPending (s : Store) : List Order :=
  s.orders.filter (fun o => o.status == .Pending)

/-- Handler `GET /api/orders/all`. -/
def listAll (s : Store) : List Order := s.orders

/-! ## Order transitions (server.js lines 203-273) -/

/-- Handler `POST /api/orders/:orderId/accept`. -/
def acceptOrder (rt : JsRuntime) (s : Store) (orderId : String) : Store × Response :=
  match findOrderById rt s orderId with
  | none => (s, internalError)
  | some none => (s, ⟨404, .error "Order not found"⟩)
  | some (some order) =>
    if order.status ≠ .Pending then (s, ⟨400, .error "Order cannot be accepted"⟩)
    else
      (saveOrder s { order with status := .Accepted },
        ⟨200, .message "Order accepted successfully"⟩)

/-- Handler `POST /api/orders/:orderId/reject`. -/
def rejectOrder (rt : JsRuntime) (s : Store) (orderId : String) : Store × Response :=
  match findOrderById rt s orderId with
  | none => (s, internalError)
  | some none => (s, ⟨404, .error "Order not found"⟩)
  | some (some order) =>
    if order.status ≠ .Pending then (s, ⟨400, .error "Order cannot be rejected"⟩)
    else
      (saveOrder s { order with status := .Rejected },
        ⟨200, .message "Order rejected successfully"⟩)

/-- Handler `POST /api/orders/:orderId/deliver`. -/
def deliverOrder (rt : JsRuntime) (env : Env) (s : Store) (orderId : String) :
    Store × Response :=
  match findOrderById rt s orderId with
  | none => (s, internalError)
  | some none => (s, ⟨404, .error "Order not found"⟩)
  | some (some order) =>
    if order.status ≠ .Accepted then
      (s, ⟨400, .error "Order must be accepted before marking as delivered"⟩)
    else
      (saveOrder s { order with status := .Delivered, deliveredAt := some env.now },
        ⟨200, .message "Order marked as delivered successfully"⟩)

/-! ## Referrals and rewards (server.js lines 276-365) -/

/-- The document `new Referral({...})` of lines 289-293, with the schema defaults. -/
def newReferral (env : Env) (id : Nat) (referralCode : Option String) (friendEmail : JsVal) :
    Referral :=
  { id := id, referrerId := "mockUser123", referralCode := referralCode,
    referredEmail := friendEmail, status := .Pending, reward := "₹100 Discount",
    discountCode := none, claimed := false, createdAt := env.now }

/-- Handler `POST /api/referrals/send`. -/
def sendReferral (rt : JsRuntime) (env : Env) (s : Store) (req : ReferralRequest) :
    Store × Response :=
  if !truthy req.friendEmail then (s, ⟨400, .error "Invalid email address"⟩)
  else
    match regexTest emailPattern req.friendEmail with
    | none => (s, internalError)
    | some false => (s, ⟨400, .error "Invalid email address"⟩)
    | some true =>
      match rt.refParam req.referralLink with
      | none => (s, internalError)
      | some referralCode =>
        let referral : Referral := newReferral env s.nextId referralCode req.friendEmail
        -- line 294: a document the schema rejects makes `save()` reject
        if !schemaAcceptsReferral referral then (s, internalError)
        else
          let saved : Store :=
            { s with referrals := s.referrals ++ [referral], nextId := s.nextId + 1 }
          -- line 316: this send is not guarded, a failure reaches the outer catch
          if env.mailOk then (saved, ⟨200, .message "Referral email sent successfully"⟩)
          else (saved, internalError)

/-- Handler `GET /api/rewards`. -/
def listRewards (s : Store) : List Referral := s.referrals

/-- Handler `POST /api/rewards/claim/:rewardId`. -/
def claimReward (rt : JsRuntime) (env : Env) (s : Store) (rewardId : String) :
    Store × Response :=
  match findReferralById rt s rewardId with
  | none => (s, internalError)
  | some none => (s, ⟨404, .error "Referral not found"⟩)
  | some (some referral) =>
    if referral.status ≠ .Completed then
      (s, ⟨400, .error "Reward cannot be claimed yet"⟩)
    else if referral.claimed then
      (s, ⟨400, .error "Reward already claimed"⟩)
    else
      let code := generateDiscountCode env.random36
      (saveReferral s { referral with claimed := true, discountCode := some code },
        ⟨200, .rewardClaimed "Reward claimed successfully" code⟩)

/-! ## The API as one step function -/

/-- The requests of the HTTP API. -/
inductive Request where
  | submitOrder (body : OrderRequest)
  | listPending
  | listAll
  | accept (orderId : String)
  | reject (orderId : String)
  | deliver (orderId : String)
  | sendReferral (body : ReferralRequest)
  | listRewards
  | claimReward (rewardId : String)

/-- Dispatch of one request to its handler. -/
def handle (rt : JsRuntime) (env : Env) (s : Store) : Request → Store × Response
  | .submitOrder body => submitOrder rt env s body
  | .listPending => (s, ⟨200, .orders (listPending s)⟩)
  | .listAll => (s, ⟨200, .orders (listAll s)⟩)
  | .accept orderId => acceptOrder rt s orderId
  | .reject orderId => rejectOrder rt s orderId
  | .deliver orderId => deliverOrder rt env s orderId
  | .sendReferral body => sendReferral rt env s body
  | .listRewards => (s, ⟨200, .rewards (listRewards s)⟩)
  | .claimReward rewardId => claimReward rt env s rewardId

/-- Stores reachable from the empty store through the API. -/
inductive Reachable (rt : JsRuntime) : Store → Prop where
  | empty : Reachable rt Store.empty
  | step (env : Env) (req : Request) {s : Store} (h : Reachable rt s) :
      Reachable rt (handle rt env s req).1

/-! ## Rendering of the random source -/

/-- The digits of radix 36, as `Number.prototype.toString(36)` prints them. -/
def radix36Digits : List Char := "0123456789abcdefghijklmnopqrstuvwxyz".toList

/-- Fraction digits of `m / 2 ^ j` in radix 36, most significant first. -/
def fractionDigits36 (j : Nat) : Nat → Nat → List Char
  | 0, _ => []
  | fuel + 1, m =>
    if m = 0 then []
    else radix36Digits.getD (36 * m / 2 ^ j) '0' :: fractionDigits36 j fuel (36 * m % 2 ^ j)

/-- Exact radix-36 expansion of the double `m / 2 ^ j` in `[0, 1)`; it is the string
`toString(36)` returns whenever the expansion ends within the precision of a double. -/
def toStringRadix36 (m j : Nat) : String :=
  if m = 0 then "0" else String.mk ('0' :: '.' :: fractionDigits36 j j m)

/-- Upper-case letter or decimal digit. -/
def isUpperAlnum (c : Char) : Bool := c.isUpper || c.isDigit

/-! ## Vocabulary of the specification -/

/-- The three status transitions of section 4.1. -/
inductive Transition where
  | accept
  | reject
  | deliver
  deriving DecidableEq, Repr

/-- Status an order must have for the transition (spec 4.1). -/
def Transition.required : Transition → OrderStatus
  | .accept => .Pending
  | .reject => .Pending
  | .deliver => .Accepted

/-- Status an order has after the transition (spec 4.1). -/
def Transition.target : Transition → OrderStatus
  | .accept => .Accepted
  | .reject => .Rejected
  | .deliver => .Delivered

/-- The handler serving a transition. -/
def runTransition (rt : JsRuntime) (env : Env) (s : Store) (orderId : String) :
    Transition → Store × Response
  | .accept => acceptOrder rt s orderId
  | .reject => rejectOrder rt s orderId
  | .deliver => deliverOrder rt env s orderId

/-- Spec wording: `cartItems` is missing, not an array or empty. -/
def specCartInvalid : JsVal → Bool
  | .arr (_ :: _) => false
  | _ => true

/-- Spec wording: `deliveryAddress` is missing, empty or not a string. -/
def specAddressInvalid : JsVal → Bool
  | .str s => s == ""
  | _ => true

/-- Spec wording: `mobileNumber` does not match `^[0-9]{10}$`. -/
def specMobileInvalid (v : JsVal) : Bool := !matchPieces mobilePattern (toStringJs v).toList

/-- Spec wording: `paymentMethod` is not exactly `"cod"`. -/
def specPaymentInvalid : JsVal → Bool
  | .str s => s != "cod"
  | _ => true

/-- Spec wording: `totalPrice` is not a number or is `<= 0`. -/
def specPriceInvalid : JsVal → Bool
  | .num n => n.leZero
  | _ => true

/-- Spec wording: the checks in the order cart, address, mobile, payment, price; the
message of the first that fails. -/
def specFirstFailure (req : OrderRequest) : Option String :=
  if specCartInvalid req.cartItems then some "Cart items are required"
  else if specAddressInvalid req.deliveryAddress then some "Delivery address is required"
  else if specMobileInvalid req.mobileNumber then some "Valid mobile number is required"
  else if specPaymentInvalid req.paymentMethod then some "Payment method must be COD"
  else if specPriceInvalid req.totalPrice then some "Valid total price is required"
  else none

/-- Order invariant of section 3: `deliveredAt` is set exactly on Delivered orders. -/
def OrderInv (o : Order) : Prop := o.deliveredAt ≠ none ↔ o.status = .Delivered

/-- Referral invariant of section 3: a claimed referral, and one holding a discount
code, is Completed. -/
def ReferralInv (r : Referral) : Prop :=
  (r.claimed = true → r.status = .Completed) ∧ (r.discountCode ≠ none → r.status = .Completed)

/-! ## Sample data -/

/-- Value of one hexadecimal digit. -/
def hexDigit (c : Char) : Option Nat :=
  if '0' ≤ c ∧ c ≤ '9' then some (c.toNat - 48)
  else if 'a' ≤ c ∧ c ≤ 'f' then some (c.toNat - 87)
  else if 'A' ≤ c ∧ c ≤ 'F' then some (c.toNat - 55)
  else none

/-- Value of a hexadecimal numeral, continuing from `acc`. -/
def hexValue : List Char → Nat → Option Nat
  | [], acc => some acc
  | c :: cs, acc =>
    match hexDigit c with
    | none => none
    | some d => hexValue cs (16 * acc + d)

/-- An ObjectId cast for the examples: exactly 24 hexadecimal characters. -/
def sampleCastObjectId (segment : String) : Option Nat :=
  if segment.length = 24 then hexValue segment.toList 0 else none

/-- A runtime for the examples: every string link carries `ref=FRIEND10`, ids are 24
hexadecimal characters, and array or object filters are rejected. -/
def sampleRuntime : JsRuntime :=
  { stringToNumber := fun _ => .nan
    refParam := fun link =>
      match link with
      | .str _ => some (some "FRIEND10")
      | _ => none
    castObjectId := sampleCastObjectId
    castFilter := fun _ => none }

/-- The path segment of the identifier 0. -/
def idZero : String := "000000000000000000000000"

/-- An environment for the examples; `0.4fzyo82mvyr` is a typical random rendering. -/
def sampleEnv : Env := { now := 1700000000, random36 := "0.4fzyo82mvyr", mailOk := true }

/-- The cart of the scenario in section 8 of the specification. -/
def sampleCart : JsVal :=
  .arr [.obj [("id", .str "1"), ("name", .str "Whole Chicken"),
    ("price", .num (.fin false 3 2)), ("quantity", .num (.fin false 2 0)),
    ("image", .str "x.jpg"), ("category", .str "chicken")]]

/-- The order of the scenario in section 8, with an optional referral code. -/
def sampleOrder (referralCode : Option String) : OrderRequest :=
  { cartItems := sampleCart, deliveryAddress := .str "12 Main St",
    mobileNumber := .str "9876543210", altMobileNumber := .undefined,
    paymentMethod := .str "cod", totalPrice := .num (.fin false 6 2),
    referralCode :=
      match referralCode with
      | none => .undefined
      | some code => .str code }

/-- The scenario order with the cart `[null]`. -/
def nullItemOrder : OrderRequest := { sampleOrder none with cartItems := .arr [.null] }

/-- The scenario order with `mobileNumber` set to the object `{"toString": 1}`. -/
def shadowedMobileOrder : OrderRequest :=
  { sampleOrder none with mobileNumber := .obj [("toString", .num (.fin false 1 0))] }

/-- A pending referral as `POST /api/referrals/send` stores it. -/
def sampleReferral (id : Nat) (code : String) : Referral :=
  { id := id, referrerId := "mockUser123", referralCode := some code,
    referredEmail := .str "friend@example.com", status := .Pending,
    reward := "₹100 Discount", discountCode := none, claimed := false,
    createdAt := 1700000000 }

/-- Two Pending referrals sharing the code `FRIEND10`. -/
def sharedCodeStore : Store :=
  { orders := [], referrals := [sampleReferral 0 "FRIEND10", sampleReferral 1 "FRIEND10"],
    nextId := 2 }

/-- One Pending referral whose code is the empty string (link `...?ref=`). -/
def emptyCodeStore : Store :=
  { orders := [], referrals := [sampleReferral 0 ""], nextId := 1 }

/-- One Pending referral with the code `FRIEND10`. -/
def singleReferralStore : Store :=
  { orders := [], referrals := [sampleReferral 0 "FRIEND10"], nextId := 1 }

/-- The store after the scenario order is submitted. -/
def submittedStore : Store :=
  (handle sampleRuntime sampleEnv Store.empty (.submitOrder (sampleOrder none))).1

/-- The store after the scenario order is submitted, accepted and delivered. -/
def deliveredStore : Store :=
  (handle sampleRuntime sampleEnv
    (handle sampleRuntime sampleEnv
      (handle sampleRuntime sampleEnv Store.empty (.submitOrder (sampleOrder none))).1
      (.accept idZero)).1
    (.deliver idZero)).1

/-- An invitation whose link carries `ref=FRIEND10`. -/
def sampleInvitation : ReferralRequest :=
  { friendEmail := .str "friend@example.com",
    referralLink := .str "https://shop.example/?ref=FRIEND10" }

/-- The store after an invitation is sent, an order with its code is submitted and the
reward is claimed. -/
def claimedStore : Store :=
  (handle sampleRuntime sampleEnv
    (handle sampleRuntime sampleEnv
      (handle sampleRuntime sampleEnv Store.empty (.sendReferral sampleInvitation)).1
      (.submitOrder (sampleOrder (some "FRIEND10")))).1
    (.claimReward idZero)).1

/-! ## Lemmas on the store primitives -/

theorem find?_replaceFirst {α : Type} (p : α → Bool) (new : α) (hnew : p new = true) :
    ∀ (l : List α) (x : α), l.find? p = some x → (replaceFirst p new l).find? p = some new
  | [], x, h => by simp at h
  | y :: ys, x, h => by
    by_cases hy : p y = true
    · simp [replaceFirst, hy, List.find?, hnew]
    · have hy2 : p y = false := by simpa using hy
      have h2 : ys.find? p = some x := by simpa [List.find?, hy2] using h
      simp [replaceFirst, hy2, List.find?]
      exact find?_replaceFirst p new hnew ys x h2

theorem mem_replaceFirst {α : Type} (p : α → Bool) (new : α) :
    ∀ (l : List α) (x : α), x ∈ replaceFirst p new l → x ∈ l ∨ x = new
  | [], x, h => by simp [replaceFirst] at h
  | y :: ys, x, h => by
    by_cases hy : p y = true
    · simp [replaceFirst, hy] at h
      rcases h with h | h
      · exact Or.inr h
      · exact Or.inl (List.mem_cons_of_mem _ h)
    · have hy2 : p y = false := by simpa using hy
      simp [replaceFirst, hy2] at h
      rcases h with h | h
      · exact Or.inl (by simp [h])
      · rcases mem_replaceFirst p new ys x h with h3 | h3
        · exact Or.inl (List.mem_cons_of_mem _ h3)
        · exact Or.inr h3

theorem findOrder_eq_none_iff (s : Store) (id : Nat) :
    findOrder s id = none ↔ ¬ ∃ o ∈ s.orders, o.id = id := by
  simp [findOrder, List.find?_eq_none]

theorem findOrder_saveOrder (s : Store) (id : Nat) (o new : Order)
    (h : findOrder s id = some o) (hid : new.id = id) :
    findOrder (saveOrder s new) id = some new := by
  unfold findOrder at h
  unfold findOrder saveOrder
  simp only [hid]
  exact find?_replaceFirst (fun (x : Order) => x.id == id) new (by simp [hid]) s.orders o h

theorem findOrder_id (s : Store) (id : Nat) (o : Order) (h : findOrder s id = some o) :
    o.id = id := by
  have := List.find?_some h
  simpa using this

theorem findOrder_mem (s : Store) (id : Nat) (o : Order) (h : findOrder s id = some o) :
    o ∈ s.orders := List.mem_of_find?_eq_some h

theorem findReferral_eq_none_iff (s : Store) (id : Nat) :
    findReferral s id = none ↔ ¬ ∃ r ∈ s.referrals, r.id = id := by
  simp [findReferral, List.find?_eq_none]

theorem findReferral_saveReferral (s : Store) (id : Nat) (r new : Referral)
    (h : findReferral s id = some r) (hid : new.id = id) :
    findReferral (saveReferral s new) id = some new := by
  unfold findReferral at h
  unfold findReferral saveReferral
  simp only [hid]
  exact find?_replaceFirst (fun (x : Referral) => x.id == id) new (by simp [hid])
    s.referrals r h

theorem findReferral_id (s : Store) (id : Nat) (r : Referral)
    (h : findReferral s id = some r) : r.id = id := by
  have := List.find?_some h
  simpa using this

theorem findReferral_mem (s : Store) (id : Nat) (r : Referral)
    (h : findReferral s id = some r) : r ∈ s.referrals := List.mem_of_find?_eq_some h

theorem findReferral_of_mem (s : Store) (r : Referral) (h : r ∈ s.referrals) :
    ∃ x, findReferral s r.id = some x := by
  cases hf : findReferral s r.id with
  | some x => exact ⟨x, rfl⟩
  | none => exact absurd ⟨r, h, rfl⟩ ((findReferral_eq_none_iff s r.id).1 hf)

theorem findReferralByCode_some (s : Store) (code : String) (r : Referral)
    (h : findReferralByCode s code = some r) :
    r ∈ s.referrals ∧ r.referralCode = some code := by
  unfold findReferralByCode at h
  refine ⟨List.mem_of_find?_eq_some h, ?_⟩
  have := List.find?_some h
  simpa using this

theorem saveOrder_inv (s : Store) (new : Order) (P : Order → Prop)
    (hs : ∀ o ∈ s.orders, P o) (hnew : P new) : ∀ o ∈ (saveOrder s new).orders, P o := by
  intro o ho
  rcases mem_replaceFirst _ _ _ _ ho with h | h
  · exact hs o h
  · exact h ▸ hnew

theorem saveReferral_inv (s : Store) (new : Referral) (P : Referral → Prop)
    (hs : ∀ r ∈ s.referrals, P r) (hnew : P new) :
    ∀ r ∈ (saveReferral s new).referrals, P r := by
  intro r hr
  rcases mem_replaceFirst _ _ _ _ hr with h | h
  · exact hs r h
  · exact h ▸ hnew

/-! ## Order transitions -/

/-- A path segment that is not an ObjectId is answered 500 by the three transition
handlers, and the store is left as it was. -/
theorem transition_uncastable (rt : JsRuntime) (env : Env) (s : Store) (seg : String)
    (op : Transition) (hcast : rt.castObjectId seg = none) :
    runTransition rt env s seg op = (s, internalError) := by
  cases op <;> simp [runTransition, acceptOrder, rejectOrder, deliverOrder, findOrderById, hcast]

/-- Claim C1 fails as stated: in the empty store no order has the id `7`, yet accept,
reject and deliver answer 500 and not 404, because the lookup rejects a path segment
that is not an ObjectId. -/
theorem transition_malformed_id_counterexample :
    sampleRuntime.castObjectId "7" = none ∧
    Store.empty.orders = [] ∧
    (runTransition sampleRuntime sampleEnv Store.empty "7" .accept).2.status = 500 ∧
    (runTransition sampleRuntime sampleEnv Store.empty "7" .reject).2.status = 500 ∧
    (runTransition sampleRuntime sampleEnv Store.empty "7" .deliver).2.status = 500 :=
  ⟨by decide, rfl, by decide, by decide, by decide⟩

/-- Claim C1 as amended: for an order id that the lookup casts to an identifier, each of
accept, reject and deliver answers 404 exactly when no order has the id, 400 exactly when
the fetched order is not in the required status, and otherwise answers 200 and leaves
the order in the target status; deliver on a Pending order, a second accept, and reject
on an Accepted order all answer 400. -/
theorem transition_contract (rt : JsRuntime) (env : Env) (s : Store) (seg : String)
    (id : Nat) (op : Transition) (hcast : rt.castObjectId seg = some id) :
    ((runTransition rt env s seg op).2.status = 404 ↔ ¬ ∃ o ∈ s.orders, o.id = id) ∧
    ((runTransition rt env s seg op).2.status = 400 ↔
      ∃ o, findOrder s id = some o ∧ o.status ≠ op.required) ∧
    (∀ o, findOrder s id = some o → o.status = op.required →
      (runTransition rt env s seg op).2.status = 200 ∧
      ∃ o2, findOrder (runTransition rt env s seg op).1 id = some o2 ∧
        o2.status = op.target ∧ o2.id = o.id) ∧
    (∀ o, findOrder s id = some o → o.status = .Pending →
      (deliverOrder rt env s seg).2.status = 400) ∧
    ((∃ o ∈ s.orders, o.id = id) →
      (acceptOrder rt (acceptOrder rt s seg).1 seg).2.status = 400) ∧
    (∀ o, findOrder s id = some o → o.status = .Accepted →
      (rejectOrder rt s seg).2.status = 400) := by
  refine ⟨?_, ?_, ?_, ?_, ?_, ?_⟩
  · rw [← findOrder_eq_none_iff]
    cases hf : findOrder s id with
    | none =>
      cases op <;> simp [runTransition, acceptOrder, rejectOrder, deliverOrder, findOrderById, hcast, hf]
    | some o =>
      cases op <;>
        simp only [runTransition, acceptOrder, rejectOrder, deliverOrder, findOrderById, hcast, hf] <;>
        split <;> simp
  · cases hf : findOrder s id with
    | none =>
      cases op <;> simp [runTransition, acceptOrder, rejectOrder, deliverOrder, findOrderById, hcast, hf]
    | some o =>
      cases op <;>
        simp only [runTransition, acceptOrder, rejectOrder, deliverOrder, findOrderById, hcast, hf,
          Transition.required] <;>
        split <;> simp_all
  · intro o hf hst
    have hid := findOrder_id s id o hf
    cases op <;>
      simp only [Transition.required] at hst <;>
      simp only [runTransition, acceptOrder, rejectOrder, deliverOrder, findOrderById, hcast, hf, hst,
        Transition.target] <;>
      simp <;>
      refine ⟨_, findOrder_saveOrder s id o _ hf hid, ?_, ?_⟩ <;> simp
  · intro o hf hst
    simp [deliverOrder, findOrderById, hcast, hf, hst]
  · intro hex
    cases hf : findOrder s id with
    | none => exact absurd hex ((findOrder_eq_none_iff s id).1 hf)
    | some o =>
      have hid := findOrder_id s id o hf
      by_cases hst : o.status = .Pending
      · have h2 := findOrder_saveOrder s id o { o with status := .Accepted } hf hid
        simp [acceptOrder, findOrderById, hcast, hf, hst, h2]
      · simp [acceptOrder, findOrderById, hcast, hf, hst]
  · intro o hf hst
    simp [rejectOrder, findOrderById, hcast, hf, hst]

/-- Witness for `transition_contract`: the identifier 0 against the store holding the
scenario order. -/
theorem transition_contract_witness :
    sampleRuntime.castObjectId idZero = some 0 ∧
    ((runTransition sampleRuntime sampleEnv submittedStore idZero .deliver).2.status = 400 ↔
      ∃ o, findOrder submittedStore 0 = some o ∧ o.status ≠ Transition.deliver.required) :=
  ⟨by decide, (transition_contract sampleRuntime sampleEnv submittedStore idZero 0 .deliver
    (by decide)).2.1⟩

/-! ## Validation of an order submission -/

theorem cart_guard (v : JsVal) :
    (!truthy v || !isArray v || lengthIsZero v) = specCartInvalid v := by
  cases v with
  | arr xs => cases xs <;> simp [truthy, isArray, lengthIsZero, specCartInvalid]
  | bool b => cases b <;> simp [truthy, isArray, lengthIsZero, specCartInvalid]
  | _ => simp [truthy, isArray, lengthIsZero, specCartInvalid]

theorem address_guard (v : JsVal) :
    (!truthy v || !isString v) = specAddressInvalid v := by
  cases v with
  | str s => by_cases h : s = "" <;> simp [truthy, isString, specAddressInvalid, h, bne]
  | bool b => cases b <;> simp [truthy, isString, specAddressInvalid]
  | _ => simp [truthy, isString, specAddressInvalid]

theorem falsy_not_mobile (v : JsVal) (h : truthy v = false) :
    specMobileInvalid v = true := by
  cases v with
  | undefined => decide
  | null => decide
  | bool b =>
    cases b with
    | false => decide
    | true => simp [truthy] at h
  | num n =>
    cases n with
    | nan => decide
    | inf neg => simp [truthy] at h
    | fin neg m e =>
      have hm : m = 0 := by simpa [truthy] using h
      subst hm
      show (!matchPieces mobilePattern "0".toList) = true
      decide
  | str s =>
    have hs : s = "" := by simpa [truthy] using h
    subst hs
    decide
  | arr xs => simp [truthy] at h
  | obj props => simp [truthy] at h

theorem payment_guard (v : JsVal) :
    (!truthy v || notCod v) = specPaymentInvalid v := by
  cases v with
  | str s => by_cases h : s = "" <;> simp [truthy, notCod, specPaymentInvalid, h]
  | bool b => cases b <;> simp [truthy, notCod, specPaymentInvalid]
  | num n => cases n <;> simp [truthy, notCod, specPaymentInvalid]
  | _ => simp [truthy, notCod, specPaymentInvalid]

theorem price_guard (v : JsVal) :
    (!isNumber v || leZero v) = specPriceInvalid v := by
  cases v <;> simp [isNumber, leZero, specPriceInvalid]

/-- The five checks agree with the wording of the specification on every submission whose
`mobileNumber` can be coerced to a string: they run in the order cart, address, mobile,
payment, price, and the first that fails decides the message. -/
theorem validateOrder_of_coercible (req : OrderRequest)
    (hco : coercible req.mobileNumber = true) :
    validateOrder req =
      match specFirstFailure req with
      | some msg => .rejected msg
      | none => .passed := by
  unfold validateOrder specFirstFailure
  rw [cart_guard, address_guard, payment_guard, price_guard]
  simp only [regexTest, hco, if_true]
  cases h1 : specCartInvalid req.cartItems
  · cases h2 : specAddressInvalid req.deliveryAddress
    · cases ht : truthy req.mobileNumber
      · simp [falsy_not_mobile _ ht]
      · cases hm : matchPieces mobilePattern (toStringJs req.mobileNumber).toList
        · simp only [specMobileInvalid, hm]
          simp
        · cases h4 : specPaymentInvalid req.paymentMethod
          · cases h5 : specPriceInvalid req.totalPrice <;>
              simp only [specMobileInvalid, hm] <;> simp
          · simp only [specMobileInvalid, hm]
            simp
    · simp
  · simp

theorem specFirstFailure_eq_none (req : OrderRequest) :
    specFirstFailure req = none ↔
      (specCartInvalid req.cartItems = false ∧
        specAddressInvalid req.deliveryAddress = false ∧
        specMobileInvalid req.mobileNumber = false ∧
        specPaymentInvalid req.paymentMethod = false ∧
        specPriceInvalid req.totalPrice = false) := by
  unfold specFirstFailure
  cases specCartInvalid req.cartItems <;>
    cases specAddressInvalid req.deliveryAddress <;>
    cases specMobileInvalid req.mobileNumber <;>
    cases specPaymentInvalid req.paymentMethod <;>
    cases specPriceInvalid req.totalPrice <;> simp

theorem submitOrder_of_rejected (rt : JsRuntime) (env : Env) (s : Store)
    (req : OrderRequest) (msg : String) (h : validateOrder req = .rejected msg) :
    submitOrder rt env s req = (s, ⟨400, .error msg⟩) := by
  simp [submitOrder, h]

theorem submitOrder_of_threw (rt : JsRuntime) (env : Env) (s : Store)
    (req : OrderRequest) (h : validateOrder req = .threw) :
    submitOrder rt env s req = (s, internalError) := by
  simp [submitOrder, h]

theorem submitOrder_of_stored (rt : JsRuntime) (env : Env) (s : Store)
    (req : OrderRequest) (cleaned : List CartItem) (completed : Store)
    (hv : validateOrder req = .passed) (hc : cleanCartItems rt req.cartItems = some cleaned)
    (hschema : schemaAcceptsOrder rt (newOrder env s.nextId req cleaned) = true)
    (hcomp : completeReferral rt env (saveNewOrder env s req cleaned) req.referralCode =
      some completed) :
    submitOrder rt env s req =
      (completed,
        if emailBodyBuilds req then
          ⟨200, .orderPlaced "Order placed successfully" s.nextId⟩
        else internalError) := by
  unfold submitOrder
  rw [hv]
  simp only [hc, hschema, hcomp]
  by_cases hb : emailBodyBuilds req = true <;>
    by_cases hm : env.mailOk = true <;> simp [hb, hm, newOrder]

theorem submitOrder_cases (rt : JsRuntime) (env : Env) (s : Store) (req : OrderRequest) :
    ((submitOrder rt env s req).1 = s ∧ (submitOrder rt env s req).2.status ≠ 200) ∨
    ∃ cleaned,
      ((submitOrder rt env s req).1 = saveNewOrder env s req cleaned ∧
        (submitOrder rt env s req).2.status = 500) ∨
      ∃ completed,
        completeReferral rt env (saveNewOrder env s req cleaned) req.referralCode =
          some completed ∧
        (submitOrder rt env s req).1 = completed ∧
        ((submitOrder rt env s req).2.status = 500 ∨
          (submitOrder rt env s req).2.status = 200) := by
  cases hv : validateOrder req with
  | rejected msg => left; simp [submitOrder, hv]
  | threw => left; simp [submitOrder, hv, internalError]
  | passed =>
    cases hc : cleanCartItems rt req.cartItems with
    | none => left; simp [submitOrder, hv, hc, internalError]
    | some cleaned =>
      by_cases hschema : schemaAcceptsOrder rt (newOrder env s.nextId req cleaned) = true
      · right
        refine ⟨cleaned, ?_⟩
        cases hcomp : completeReferral rt env (saveNewOrder env s req cleaned)
            req.referralCode with
        | none => left; simp [submitOrder, hv, hc, hschema, hcomp, internalError]
        | some completed =>
          right
          refine ⟨completed, rfl, ?_⟩
          rw [submitOrder_of_stored rt env s req cleaned completed hv hc hschema hcomp]
          by_cases hb : emailBodyBuilds req = true <;> simp [hb, internalError]
      · left; simp [submitOrder, hv, hc, hschema, internalError]

theorem submitOrder_status_of_passed (rt : JsRuntime) (env : Env) (s : Store)
    (req : OrderRequest) (h : validateOrder req = .passed) :
    (submitOrder rt env s req).2.status = 500 ∨ (submitOrder rt env s req).2.status = 200 := by
  cases hc : cleanCartItems rt req.cartItems with
  | none => simp [submitOrder, h, hc, internalError]
  | some cleaned =>
    by_cases hschema : schemaAcceptsOrder rt (newOrder env s.nextId req cleaned) = true
    · cases hcomp : completeReferral rt env (saveNewOrder env s req cleaned)
          req.referralCode with
      | none => simp [submitOrder, h, hc, hschema, hcomp, internalError]
      | some completed =>
        rw [submitOrder_of_stored rt env s req cleaned completed h hc hschema hcomp]
        by_cases hb : emailBodyBuilds req = true <;> simp [hb, internalError]
    · simp [submitOrder, h, hc, hschema, internalError]

/-- The five checks in the wording of the specification decide the response of every
submission whose `mobileNumber` can be coerced: the 400 of the first failing check, and
no 400 exactly when none fails. -/
theorem validation_first_failure (rt : JsRuntime) (env : Env) (s : Store)
    (req : OrderRequest) (hco : coercible req.mobileNumber = true) :
    (∀ msg, specFirstFailure req = some msg →
      submitOrder rt env s req = (s, ⟨400, .error msg⟩)) ∧
    ((submitOrder rt env s req).2.status ≠ 400 ↔ specFirstFailure req = none) ∧
    (validateOrder req = .passed ↔ specFirstFailure req = none) := by
  have hv := validateOrder_of_coercible req hco
  cases hs : specFirstFailure req with
  | some msg =>
    rw [hs] at hv
    have hsub := submitOrder_of_rejected rt env s req msg hv
    refine ⟨fun m hm => ?_, ?_, ?_⟩
    · cases hm
      exact hsub
    · simp [hsub]
    · simp [hv]
  | none =>
    rw [hs] at hv
    refine ⟨fun m hm => (by cases hm), ?_, ?_⟩
    · rcases submitOrder_status_of_passed rt env s req hv with h | h <;> simp [h]
    · simp [hv]

/-- Claim C2, behaviour of the code on `mobileNumber = {"toString": 1}` with a valid
cart and address: by the wording of the specification the mobile check fails, but the
pattern test throws while coercing the object, and the response is the 500 of the outer
catch instead of the 400 of the mobile check. -/
theorem validate_shadowed_mobile (rt : JsRuntime) (env : Env) (s : Store) :
    specFirstFailure shadowedMobileOrder = some "Valid mobile number is required" ∧
    validateOrder shadowedMobileOrder = .threw ∧
    submitOrder rt env s shadowedMobileOrder =
      (s, ⟨500, .error "Internal server error"⟩) := by
  have hv : validateOrder shadowedMobileOrder = .threw := by decide
  exact ⟨by decide, hv, submitOrder_of_threw rt env s _ hv⟩

/-! ## The mobile-number pattern -/

theorem matchPieces_mobile (cs : List Char) :
    matchPieces mobilePattern cs = true ↔
      cs.length = 10 ∧ ∀ c ∈ cs, '0' ≤ c ∧ c ≤ '9' := by
  simp only [mobilePattern, matchPieces, Bool.and_eq_true, decide_eq_true_eq,
    List.all_eq_true, List.isEmpty_iff, List.drop_eq_nil_iff, isDigit09]
  constructor
  · rintro ⟨⟨h1, h2⟩, h3⟩
    have hlen : cs.length = 10 := Nat.le_antisymm h3 h1
    refine ⟨hlen, ?_⟩
    intro c hc
    have : cs.take 10 = cs := List.take_of_length_le (by omega)
    rw [this] at h2
    exact h2 c hc
  · rintro ⟨hlen, hall⟩
    refine ⟨⟨by omega, ?_⟩, by omega⟩
    intro c hc
    exact hall c (List.mem_of_mem_take hc)

/-- Claim C3: when the other four fields are valid and `mobileNumber` is a string, the
submission passes validation exactly when the string has 10 characters, each a digit
`0`-`9`; otherwise, and so for every string of 9 or 11 characters, it is answered 400
"Valid mobile number is required". -/
theorem mobile_check (rt : JsRuntime) (env : Env) (s : Store) (req : OrderRequest)
    (m : String) (hm : req.mobileNumber = .str m)
    (hcart : specCartInvalid req.cartItems = false)
    (haddr : specAddressInvalid req.deliveryAddress = false)
    (hpay : specPaymentInvalid req.paymentMethod = false)
    (hprice : specPriceInvalid req.totalPrice = false) :
    (validateOrder req = .passed ↔ m.length = 10 ∧ ∀ c ∈ m.toList, '0' ≤ c ∧ c ≤ '9') ∧
    (¬ (m.length = 10 ∧ ∀ c ∈ m.toList, '0' ≤ c ∧ c ≤ '9') →
      submitOrder rt env s req = (s, ⟨400, .error "Valid mobile number is required"⟩)) ∧
    (m.length = 9 ∨ m.length = 11 →
      submitOrder rt env s req = (s, ⟨400, .error "Valid mobile number is required"⟩)) := by
  have hco : coercible req.mobileNumber = true := by rw [hm]; rfl
  have key : specMobileInvalid req.mobileNumber = false ↔
      (m.length = 10 ∧ ∀ c ∈ m.toList, '0' ≤ c ∧ c ≤ '9') := by
    have hrun : specMobileInvalid (.str m) = !matchPieces mobilePattern m.toList := rfl
    rw [hm, hrun, Bool.not_eq_false_eq_eq_true, matchPieces_mobile]
    exact Iff.rfl
  have hrej : ¬ (m.length = 10 ∧ ∀ c ∈ m.toList, '0' ≤ c ∧ c ≤ '9') →
      submitOrder rt env s req = (s, ⟨400, .error "Valid mobile number is required"⟩) := by
    intro hbad
    have hmob : specMobileInvalid req.mobileNumber = true := by
      cases hx : specMobileInvalid req.mobileNumber with
      | true => rfl
      | false => exact absurd (key.1 hx) hbad
    apply (validation_first_failure rt env s req hco).1
    simp [specFirstFailure, hcart, haddr, hmob]
  refine ⟨?_, hrej, ?_⟩
  · rw [← key, (validation_first_failure rt env s req hco).2.2, specFirstFailure_eq_none]
    simp [hcart, haddr, hpay, hprice]
  · intro h
    apply hrej
    rintro ⟨h10, -⟩
    omega

/-- Witness for `mobile_check`: the scenario order of section 8. -/
theorem mobile_check_witness :
    (sampleOrder none).mobileNumber = .str "9876543210" ∧
    (validateOrder (sampleOrder none) = .passed ↔
      "9876543210".length = 10 ∧ ∀ c ∈ "9876543210".toList, '0' ≤ c ∧ c ≤ '9') :=
  ⟨rfl, (mobile_check sampleRuntime sampleEnv Store.empty (sampleOrder none) "9876543210"
    rfl (by decide) (by decide) (by decide) (by decide)).1⟩

/-! ## Persisting a submitted order -/

theorem completeReferral_cases (rt : JsRuntime) (env : Env) (s : Store) (code : JsVal)
    (s2 : Store) (h : completeReferral rt env s code = some s2) :
    s2 = s ∨ ∃ r ∈ s.referrals, r.status = .Pending ∧
      s2 = saveReferral s { r with
        status := .Completed
        discountCode := some (generateDiscountCode env.random36) } := by
  unfold completeReferral at h
  by_cases ht : truthy code = true
  · simp only [ht, Bool.not_true, Bool.false_eq_true, if_false] at h
    cases hq : codeFilter rt code with
    | none => simp [hq] at h
    | some selects =>
      simp only [hq] at h
      cases hfind : s.referrals.find? (fun r => selects r.referralCode) with
      | none =>
        simp only [hfind, Option.some.injEq] at h
        exact Or.inl h.symm
      | some r =>
        simp only [hfind] at h
        by_cases hp : r.status = .Pending
        · simp only [hp, if_true, Option.some.injEq] at h
          exact Or.inr ⟨r, List.mem_of_find?_eq_some hfind, hp, h.symm⟩
        · simp only [hp, if_false, Option.some.injEq] at h
          exact Or.inl h.symm
  · have ht2 : truthy code = false := by simpa using ht
    simp only [ht2, Bool.not_false, if_true, Option.some.injEq] at h
    exact Or.inl h.symm

theorem completeReferral_orders (rt : JsRuntime) (env : Env) (s : Store) (code : JsVal)
    (s2 : Store) (h : completeReferral rt env s code = some s2) :
    s2.orders = s.orders ∧ s2.nextId = s.nextId := by
  rcases completeReferral_cases rt env s code s2 h with h1 | ⟨r, -, -, h1⟩ <;>
    subst h1 <;> exact ⟨rfl, rfl⟩

theorem completeReferral_mem (rt : JsRuntime) (env : Env) (s : Store) (code : JsVal)
    (s2 : Store) (h : completeReferral rt env s code = some s2) (x : Referral)
    (hx : x ∈ s2.referrals) :
    x ∈ s.referrals ∨ ∃ r ∈ s.referrals, r.status = .Pending ∧
      x = { r with status := .Completed,
                   discountCode := some (generateDiscountCode env.random36) } := by
  rcases completeReferral_cases rt env s code s2 h with h1 | ⟨r, hr, hp, h1⟩
  · subst h1
    exact Or.inl hx
  · subst h1
    rcases mem_replaceFirst _ _ _ _ hx with h2 | h2
    · exact Or.inl h2
    · exact Or.inr ⟨r, hr, hp, h2⟩

/-- For a valid submission whose cart items can all be read and printed, whose order
document the schema accepts and whose referral lookup resolves, and an identifier
counter not yet in use: the response is a success carrying an id under which the
resulting store holds exactly one order, Pending and undelivered, listed by both list
handlers; the mail outcome `env.mailOk` plays no part. -/
theorem submitOrder_persists (rt : JsRuntime) (env : Env) (s : Store)
    (req : OrderRequest) (cleaned : List CartItem) (completed : Store)
    (hv : validateOrder req = .passed) (hc : cleanCartItems rt req.cartItems = some cleaned)
    (hschema : schemaAcceptsOrder rt (newOrder env s.nextId req cleaned) = true)
    (hcomp : completeReferral rt env (saveNewOrder env s req cleaned) req.referralCode =
      some completed)
    (hb : emailBodyBuilds req = true) (hfresh : ∀ o ∈ s.orders, o.id ≠ s.nextId) :
    (submitOrder rt env s req).2 = ⟨200, .orderPlaced "Order placed successfully" s.nextId⟩ ∧
    ∃ o : Order, o.id = s.nextId ∧ o.status = .Pending ∧ o.deliveredAt = none ∧
      (submitOrder rt env s req).1.orders.filter (fun x => x.id == s.nextId) = [o] ∧
      o ∈ listAll (submitOrder rt env s req).1 ∧
      o ∈ listPending (submitOrder rt env s req).1 := by
  rw [submitOrder_of_stored rt env s req cleaned completed hv hc hschema hcomp]
  have horders : completed.orders = s.orders ++ [newOrder env s.nextId req cleaned] :=
    (completeReferral_orders rt env _ _ completed hcomp).1
  refine ⟨by simp [hb], ⟨newOrder env s.nextId req cleaned, rfl, rfl, rfl, ?_, ?_, ?_⟩⟩
  · simp only [horders, List.filter_append]
    have hnil : s.orders.filter (fun x => x.id == s.nextId) = [] := by
      simp only [List.filter_eq_nil_iff]
      intro o ho
      simpa using hfresh o ho
    rw [hnil]
    simp [newOrder]
  · simp [listAll, horders]
  · simp [listPending, horders, newOrder]

/-- Claim C4, behaviour of the code on the cart `[null]`: the submission passes the five
validation checks, then reading `item.id` throws inside `cartItems.map`; the response is
the 500 of the outer catch and no order is stored. -/
theorem submit_null_cart_item (rt : JsRuntime) (env : Env) (s : Store) :
    validateOrder nullItemOrder = .passed ∧
    submitOrder rt env s nullItemOrder = (s, ⟨500, .error "Internal server error"⟩) := by
  have hv : validateOrder nullItemOrder = .passed := by decide
  refine ⟨hv, ?_⟩
  unfold submitOrder
  rw [hv]
  rfl

/-! ## Referral completion on order submission -/

theorem generateDiscountCode_ne_empty (random36 : String) :
    generateDiscountCode random36 ≠ "" := by
  intro h
  have hd := congrArg String.data h
  simp [generateDiscountCode, String.data_append] at hd

/-- Claim C5 fails as stated: with two Pending referrals sharing the supplied code, a
valid submission answers 200 and the second referral is still Pending without a
discount code; and a supplied empty code completes nothing. -/
theorem referral_completion_counterexample :
    (validateOrder (sampleOrder (some "FRIEND10")) = .passed ∧
      sampleReferral 1 "FRIEND10" ∈ sharedCodeStore.referrals ∧
      (sampleOrder (some "FRIEND10")).referralCode = .str "FRIEND10" ∧
      (sampleReferral 1 "FRIEND10").referralCode = some "FRIEND10" ∧
      (sampleReferral 1 "FRIEND10").status = .Pending ∧
      (submitOrder sampleRuntime sampleEnv sharedCodeStore
        (sampleOrder (some "FRIEND10"))).2.status = 200 ∧
      ((findReferral (submitOrder sampleRuntime sampleEnv sharedCodeStore
        (sampleOrder (some "FRIEND10"))).1 1).map fun r => (r.status, r.discountCode)) =
        some (.Pending, none)) ∧
    (validateOrder (sampleOrder (some "")) = .passed ∧
      sampleReferral 0 "" ∈ emptyCodeStore.referrals ∧
      (sampleOrder (some "")).referralCode = .str "" ∧
      (sampleReferral 0 "").referralCode = some "" ∧
      (sampleReferral 0 "").status = .Pending ∧
      (submitOrder sampleRuntime sampleEnv emptyCodeStore (sampleOrder (some ""))).2.status
        = 200 ∧
      ((findReferral (submitOrder sampleRuntime sampleEnv emptyCodeStore
        (sampleOrder (some ""))).1 0).map fun r => (r.status, r.discountCode)) =
        some (.Pending, none)) := by
  refine ⟨⟨by decide, ?_, rfl, rfl, rfl, by decide, by decide⟩,
    ⟨by decide, ?_, rfl, rfl, rfl, by decide, by decide⟩⟩
  · simp [sharedCodeStore]
  · simp [emptyCodeStore]

/-- Claim C5 as amended: for a valid submission whose order is stored (cart items
readable, document accepted by the order schema) and that supplies a non-empty string as
referral code, if the first stored referral carrying that code is Pending, then after the
submission the referral fetched by its id is that record with status Completed and a
non-empty discount code. -/
theorem referral_completed_on_order (rt : JsRuntime) (env : Env) (s : Store)
    (req : OrderRequest) (cleaned : List CartItem) (code : String) (r : Referral)
    (hv : validateOrder req = .passed) (hc : cleanCartItems rt req.cartItems = some cleaned)
    (hschema : schemaAcceptsOrder rt (newOrder env s.nextId req cleaned) = true)
    (hcode : req.referralCode = .str code) (hne : code ≠ "")
    (hfind : findReferralByCode s code = some r) (hp : r.status = .Pending) :
    ∃ r2 c, findReferral (submitOrder rt env s req).1 r.id = some r2 ∧
      r2 = { r with status := .Completed, discountCode := some c } ∧
      r2.status = .Completed ∧ r2.discountCode = some c ∧ c ≠ "" ∧
      r2.referralCode = some code := by
  have hfind2 : (saveNewOrder env s req cleaned).referrals.find?
      (fun x => x.referralCode == some code) = some r := hfind
  have hcomp : completeReferral rt env (saveNewOrder env s req cleaned) req.referralCode =
      some (saveReferral (saveNewOrder env s req cleaned) { r with
        status := .Completed
        discountCode := some (generateDiscountCode env.random36) }) := by
    simp [completeReferral, hcode, truthy, hne, codeFilter, hfind2, hp]
  rw [submitOrder_of_stored rt env s req cleaned _ hv hc hschema hcomp]
  refine ⟨_, generateDiscountCode env.random36, ?_, rfl, rfl, rfl,
    generateDiscountCode_ne_empty _, (findReferralByCode_some s code r hfind).2⟩
  obtain ⟨x, hx⟩ := findReferral_of_mem s r (findReferralByCode_some s code r hfind).1
  have hx2 : findReferral (saveNewOrder env s req cleaned) r.id = some x := hx
  exact findReferral_saveReferral _ r.id x _ hx2 rfl

/-- Witness for `referral_completed_on_order`: the scenario order with code `FRIEND10`
against a store holding one Pending referral with that code. -/
theorem referral_completed_on_order_witness :
    findReferralByCode singleReferralStore "FRIEND10" = some (sampleReferral 0 "FRIEND10") ∧
    ∃ r2 c, findReferral (submitOrder sampleRuntime sampleEnv singleReferralStore
        (sampleOrder (some "FRIEND10"))).1 (sampleReferral 0 "FRIEND10").id = some r2 ∧
      r2 = { sampleReferral 0 "FRIEND10" with status := .Completed, discountCode := some c } ∧
      r2.status = .Completed ∧ r2.discountCode = some c ∧ c ≠ "" ∧
      r2.referralCode = some "FRIEND10" :=
  ⟨rfl, referral_completed_on_order sampleRuntime sampleEnv singleReferralStore
    (sampleOrder (some "FRIEND10")) _ "FRIEND10" (sampleReferral 0 "FRIEND10")
    (by decide) rfl (by decide) rfl (by decide) rfl rfl⟩

/-! ## Claiming a reward -/

/-- A path segment that is not an ObjectId is answered 500 by the claim handler, and
the store is left as it was. -/
theorem claim_uncastable (rt : JsRuntime) (env : Env) (s : Store) (seg : String)
    (hcast : rt.castObjectId seg = none) :
    claimReward rt env s seg = (s, internalError) := by
  simp [claimReward, findReferralById, hcast]

/-- Claim C6 fails as stated: in the empty store no referral has the id `7`, yet the
claim answers 500 and not 404, because the lookup rejects a path segment that is not an
ObjectId. -/
theorem claim_malformed_id_counterexample :
    sampleRuntime.castObjectId "7" = none ∧
    Store.empty.referrals = [] ∧
    (claimReward sampleRuntime sampleEnv Store.empty "7").2.status = 500 :=
  ⟨by decide, rfl, by decide⟩

/-- Claim C6 as amended: for a referral id that the lookup casts to an identifier, claim
answers 404 exactly when no referral has the id, 400 "Reward cannot be claimed yet"
exactly when the fetched referral is not Completed, 400 "Reward already claimed" exactly
when it is Completed and claimed; otherwise it answers 200 with a newly generated code,
and the stored record is the old one with `claimed = true` and that code.  A second claim
right after a successful one answers "Reward already claimed". -/
theorem claim_contract (rt : JsRuntime) (env : Env) (s : Store) (seg : String) (id : Nat)
    (hcast : rt.castObjectId seg = some id) :
    ((claimReward rt env s seg).2.status = 404 ↔ ¬ ∃ r ∈ s.referrals, r.id = id) ∧
    ((claimReward rt env s seg).2 = ⟨400, .error "Reward cannot be claimed yet"⟩ ↔
      ∃ r, findReferral s id = some r ∧ r.status ≠ .Completed) ∧
    ((claimReward rt env s seg).2 = ⟨400, .error "Reward already claimed"⟩ ↔
      ∃ r, findReferral s id = some r ∧ r.status = .Completed ∧ r.claimed = true) ∧
    (∀ r, findReferral s id = some r → r.status = .Completed → r.claimed = false →
      (claimReward rt env s seg).2 =
        ⟨200, .rewardClaimed "Reward claimed successfully"
          (generateDiscountCode env.random36)⟩ ∧
      findReferral (claimReward rt env s seg).1 id =
        some { r with claimed := true,
                      discountCode := some (generateDiscountCode env.random36) } ∧
      ∀ env2 : Env, claimReward rt env2 (claimReward rt env s seg).1 seg =
        ((claimReward rt env s seg).1, ⟨400, .error "Reward already claimed"⟩)) := by
  refine ⟨?_, ?_, ?_, ?_⟩
  · rw [← findReferral_eq_none_iff]
    cases hf : findReferral s id with
    | none => simp [claimReward, findReferralById, hcast, hf]
    | some r =>
      simp only [claimReward, findReferralById, hcast, hf]
      split
      · simp
      · split <;> simp
  · cases hf : findReferral s id with
    | none => simp [claimReward, findReferralById, hcast, hf]
    | some r =>
      simp only [claimReward, findReferralById, hcast, hf]
      split
      · simp_all
      · split <;> simp_all
  · cases hf : findReferral s id with
    | none => simp [claimReward, findReferralById, hcast, hf]
    | some r =>
      simp only [claimReward, findReferralById, hcast, hf]
      split
      · simp_all
      · split <;> simp_all
  · intro r hf hst hcl
    have hid := findReferral_id s id r hf
    have hsave := findReferral_saveReferral s id r
      { r with claimed := true, discountCode := some (generateDiscountCode env.random36) }
      hf hid
    have hrun : claimReward rt env s seg =
        (saveReferral s { r with claimed := true,
                                 discountCode := some (generateDiscountCode env.random36) },
          ⟨200, .rewardClaimed "Reward claimed successfully"
            (generateDiscountCode env.random36)⟩) := by
      simp [claimReward, findReferralById, hcast, hf, hst, hcl]
    rw [hrun]
    refine ⟨rfl, hsave, ?_⟩
    intro env2
    unfold claimReward
    simp only [findReferralById, hcast]
    rw [hsave]
    simp [hst]

/-- Witness for `claim_contract`: the identifier 0 against a store holding one Pending
referral. -/
theorem claim_contract_witness :
    sampleRuntime.castObjectId idZero = some 0 ∧
    ((claimReward sampleRuntime sampleEnv singleReferralStore idZero).2 =
        ⟨400, .error "Reward cannot be claimed yet"⟩ ↔
      ∃ r, findReferral singleReferralStore 0 = some r ∧ r.status ≠ .Completed) :=
  ⟨by decide, (claim_contract sampleRuntime sampleEnv singleReferralStore idZero 0
    (by decide)).2.1⟩

/-! ## Discount codes -/

theorem toUpper_radix36 : ∀ c ∈ radix36Digits, isUpperAlnum c.toUpper = true := by decide

/-- Shape of the discount code on a rendering `0.d1d2...` with radix-36 digits: the tag
`DISCOUNT` followed by the first eight digits in upper case; there are eight of them as
soon as the rendering has eight fraction digits, and never more. -/
theorem discount_code_shape (ds : List Char) (hds : ∀ c ∈ ds, c ∈ radix36Digits) :
    generateDiscountCode (String.mk ('0' :: '.' :: ds)) =
      "DISCOUNT" ++ String.mk ((ds.take 8).map Char.toUpper) ∧
    ((ds.take 8).map Char.toUpper).length = min 8 ds.length ∧
    ∀ c ∈ (ds.take 8).map Char.toUpper, isUpperAlnum c = true := by
  refine ⟨?_, by simp, ?_⟩
  · simp [generateDiscountCode, toUpperCase, substr]
  · intro c hc
    rw [List.mem_map] at hc
    obtain ⟨d, hd, rfl⟩ := hc
    exact toUpper_radix36 d (hds d (List.mem_of_mem_take hd))

/-- Claim C9, behaviour of the code on short renderings: `Math.random()` returning
`1/2` is rendered `0.i` and yields `DISCOUNTI`, one character after the tag; returning
`0` is rendered `0` and yields the bare tag. -/
theorem discount_code_short_rendering :
    toStringRadix36 1 1 = "0.i" ∧
    generateDiscountCode (toStringRadix36 1 1) = "DISCOUNTI" ∧
    toStringRadix36 0 0 = "0" ∧
    generateDiscountCode (toStringRadix36 0 0) = "DISCOUNT" := by
  decide

/-! ## What a handler does to the store -/

theorem acceptOrder_cases (rt : JsRuntime) (s : Store) (seg : String) :
    ((acceptOrder rt s seg).1 = s ∧ (acceptOrder rt s seg).2.status ≠ 200) ∨
    ∃ o ∈ s.orders, o.status = .Pending ∧ (acceptOrder rt s seg).2.status = 200 ∧
      (acceptOrder rt s seg).1 = saveOrder s { o with status := .Accepted } := by
  cases hcast : rt.castObjectId seg with
  | none => left; simp [acceptOrder, findOrderById, hcast, internalError]
  | some id =>
    cases hf : findOrder s id with
    | none => left; simp [acceptOrder, findOrderById, hcast, hf]
    | some o =>
      by_cases hst : o.status = .Pending
      · right
        exact ⟨o, findOrder_mem s id o hf, hst, by simp [acceptOrder, findOrderById, hcast, hf, hst]⟩
      · left; simp [acceptOrder, findOrderById, hcast, hf, hst]

theorem rejectOrder_cases (rt : JsRuntime) (s : Store) (seg : String) :
    ((rejectOrder rt s seg).1 = s ∧ (rejectOrder rt s seg).2.status ≠ 200) ∨
    ∃ o ∈ s.orders, o.status = .Pending ∧ (rejectOrder rt s seg).2.status = 200 ∧
      (rejectOrder rt s seg).1 = saveOrder s { o with status := .Rejected } := by
  cases hcast : rt.castObjectId seg with
  | none => left; simp [rejectOrder, findOrderById, hcast, internalError]
  | some id =>
    cases hf : findOrder s id with
    | none => left; simp [rejectOrder, findOrderById, hcast, hf]
    | some o =>
      by_cases hst : o.status = .Pending
      · right
        exact ⟨o, findOrder_mem s id o hf, hst, by simp [rejectOrder, findOrderById, hcast, hf, hst]⟩
      · left; simp [rejectOrder, findOrderById, hcast, hf, hst]

theorem deliverOrder_cases (rt : JsRuntime) (env : Env) (s : Store) (seg : String) :
    ((deliverOrder rt env s seg).1 = s ∧ (deliverOrder rt env s seg).2.status ≠ 200) ∨
    ∃ o ∈ s.orders, o.status = .Accepted ∧ (deliverOrder rt env s seg).2.status = 200 ∧
      (deliverOrder rt env s seg).1 =
        saveOrder s { o with status := .Delivered, deliveredAt := some env.now } := by
  cases hcast : rt.castObjectId seg with
  | none => left; simp [deliverOrder, findOrderById, hcast, internalError]
  | some id =>
    cases hf : findOrder s id with
    | none => left; simp [deliverOrder, findOrderById, hcast, hf]
    | some o =>
      by_cases hst : o.status = .Accepted
      · right
        exact ⟨o, findOrder_mem s id o hf, hst, by simp [deliverOrder, findOrderById, hcast, hf, hst]⟩
      · left; simp [deliverOrder, findOrderById, hcast, hf, hst]

theorem claimReward_cases (rt : JsRuntime) (env : Env) (s : Store) (seg : String) :
    ((claimReward rt env s seg).1 = s ∧ (claimReward rt env s seg).2.status ≠ 200) ∨
    ∃ r ∈ s.referrals, r.status = .Completed ∧ (claimReward rt env s seg).2.status = 200 ∧
      (claimReward rt env s seg).1 =
        saveReferral s { r with
          claimed := true
          discountCode := some (generateDiscountCode env.random36) } := by
  cases hcast : rt.castObjectId seg with
  | none => left; simp [claimReward, findReferralById, hcast, internalError]
  | some id =>
    cases hf : findReferral s id with
    | none => left; simp [claimReward, findReferralById, hcast, hf]
    | some r =>
      by_cases hst : r.status = .Completed
      · by_cases hcl : r.claimed = true
        · left; simp [claimReward, findReferralById, hcast, hf, hst, hcl]
        · right
          exact ⟨r, findReferral_mem s id r hf, hst,
            by simp [claimReward, findReferralById, hcast, hf, hst, hcl]⟩
      · left; simp [claimReward, findReferralById, hcast, hf, hst]

theorem sendReferral_cases (rt : JsRuntime) (env : Env) (s : Store) (req : ReferralRequest) :
    ((sendReferral rt env s req).1 = s ∧ (sendReferral rt env s req).2.status ≠ 200) ∨
    ∃ code, ((sendReferral rt env s req).2.status = 200 ∨
        (sendReferral rt env s req).2.status = 500) ∧
      (sendReferral rt env s req).1 =
      { s with referrals := s.referrals ++ [newReferral env s.nextId code req.friendEmail],
               nextId := s.nextId + 1 } := by
  by_cases ht : truthy req.friendEmail = true
  · cases hr : regexTest emailPattern req.friendEmail with
    | none => left; simp [sendReferral, ht, hr, internalError]
    | some b =>
      cases b with
      | false => left; simp [sendReferral, ht, hr]
      | true =>
        cases hc : rt.refParam req.referralLink with
        | none => left; simp [sendReferral, ht, hr, hc, internalError]
        | some code =>
          by_cases hschema :
              schemaAcceptsReferral (newReferral env s.nextId code req.friendEmail) = true
          · right
            refine ⟨code, ?_⟩
            by_cases hm : env.mailOk = true <;>
              simp [sendReferral, ht, hr, hc, hschema, hm, internalError]
          · left; simp [sendReferral, ht, hr, hc, hschema, internalError]
  · left; simp [sendReferral, ht]

/-! ## Requests answered with 400 or 404 -/

/-- Claim C10: a request answered with status 400 or 404 leaves the store as it was. -/
theorem error_leaves_store (rt : JsRuntime) (env : Env) (s : Store) (req : Request)
    (h : (handle rt env s req).2.status = 400 ∨ (handle rt env s req).2.status = 404) :
    (handle rt env s req).1 = s := by
  cases req with
  | submitOrder body =>
    simp only [handle] at h ⊢
    rcases submitOrder_cases rt env s body with h1 | ⟨cleaned, h1 | ⟨completed, -, -, h1⟩⟩
    · exact h1.1
    · rw [h1.2] at h; simp at h
    · rcases h1 with h1 | h1 <;> rw [h1] at h <;> simp at h
  | listPending => rfl
  | listAll => rfl
  | accept id =>
    simp only [handle] at h ⊢
    rcases acceptOrder_cases rt s id with h1 | ⟨o, -, -, h1, -⟩
    · exact h1.1
    · rw [h1] at h; simp at h
  | reject id =>
    simp only [handle] at h ⊢
    rcases rejectOrder_cases rt s id with h1 | ⟨o, -, -, h1, -⟩
    · exact h1.1
    · rw [h1] at h; simp at h
  | deliver id =>
    simp only [handle] at h ⊢
    rcases deliverOrder_cases rt env s id with h1 | ⟨o, -, -, h1, -⟩
    · exact h1.1
    · rw [h1] at h; simp at h
  | sendReferral body =>
    simp only [handle] at h ⊢
    rcases sendReferral_cases rt env s body with h1 | ⟨code, h1, -⟩
    · exact h1.1
    · rcases h1 with h1 | h1 <;> rw [h1] at h <;> simp at h
  | listRewards => rfl
  | claimReward id =>
    simp only [handle] at h ⊢
    rcases claimReward_cases rt env s id with h1 | ⟨r, -, -, h1, -⟩
    · exact h1.1
    · rw [h1] at h; simp at h

/-- Witness for `error_leaves_store`: accepting an unknown order in the empty store. -/
theorem error_leaves_store_witness :
    (handle sampleRuntime sampleEnv Store.empty (.accept idZero)).2.status = 404 ∧
    (handle sampleRuntime sampleEnv Store.empty (.accept idZero)).1 = Store.empty :=
  ⟨by decide, error_leaves_store sampleRuntime sampleEnv Store.empty (.accept idZero)
    (Or.inr (by decide))⟩

/-! ## Invariants of reachable stores -/

theorem handle_orderInv (rt : JsRuntime) (env : Env) (s : Store) (req : Request)
    (hs : ∀ o ∈ s.orders, OrderInv o) : ∀ o ∈ (handle rt env s req).1.orders, OrderInv o := by
  have hnew : ∀ (body : OrderRequest) (cleaned : List CartItem),
      ∀ o ∈ (saveNewOrder env s body cleaned).orders, OrderInv o := by
    intro body cleaned o ho
    rcases List.mem_append.1 ho with h1 | h1
    · exact hs o h1
    · have : o = newOrder env s.nextId body cleaned := by simpa using h1
      subst this
      simp [OrderInv, newOrder]
  cases req with
  | submitOrder body =>
    simp only [handle]
    rcases submitOrder_cases rt env s body with h | ⟨cleaned, h | ⟨completed, hc, h, -⟩⟩
    · rw [h.1]; exact hs
    · rw [h.1]; exact hnew body cleaned
    · rw [h, (completeReferral_orders rt env _ _ completed hc).1]
      exact hnew body cleaned
  | listPending => exact hs
  | listAll => exact hs
  | listRewards => exact hs
  | accept id =>
    simp only [handle]
    rcases acceptOrder_cases rt s id with h | ⟨o, ho, hst, -, h⟩
    · rw [h.1]; exact hs
    · rw [h]
      apply saveOrder_inv s _ OrderInv hs
      have hinv := hs o ho
      simp only [OrderInv, hst] at hinv ⊢
      simpa using hinv
  | reject id =>
    simp only [handle]
    rcases rejectOrder_cases rt s id with h | ⟨o, ho, hst, -, h⟩
    · rw [h.1]; exact hs
    · rw [h]
      apply saveOrder_inv s _ OrderInv hs
      have hinv := hs o ho
      simp only [OrderInv, hst] at hinv ⊢
      simpa using hinv
  | deliver id =>
    simp only [handle]
    rcases deliverOrder_cases rt env s id with h | ⟨o, ho, hst, -, h⟩
    · rw [h.1]; exact hs
    · rw [h]
      apply saveOrder_inv s _ OrderInv hs
      simp [OrderInv]
  | sendReferral body =>
    simp only [handle]
    rcases sendReferral_cases rt env s body with h | ⟨code, -, h⟩
    · rw [h.1]; exact hs
    · rw [h]; exact hs
  | claimReward id =>
    simp only [handle]
    rcases claimReward_cases rt env s id with h | ⟨r, -, -, -, h⟩
    · rw [h.1]; exact hs
    · rw [h]; exact hs

theorem handle_referralInv (rt : JsRuntime) (env : Env) (s : Store) (req : Request)
    (hs : ∀ r ∈ s.referrals, ReferralInv r) :
    ∀ r ∈ (handle rt env s req).1.referrals, ReferralInv r := by
  cases req with
  | submitOrder body =>
    simp only [handle]
    rcases submitOrder_cases rt env s body with h | ⟨cleaned, h | ⟨completed, hc, h, -⟩⟩
    · rw [h.1]; exact hs
    · rw [h.1]; exact hs
    · rw [h]
      intro r hr
      rcases completeReferral_mem rt env _ _ completed hc r hr with h1 | ⟨r0, -, -, h1⟩
      · exact hs r h1
      · subst h1
        simp [ReferralInv]
  | listPending => exact hs
  | listAll => exact hs
  | listRewards => exact hs
  | accept id =>
    simp only [handle]
    rcases acceptOrder_cases rt s id with h | ⟨o, -, -, -, h⟩
    · rw [h.1]; exact hs
    · rw [h]; exact hs
  | reject id =>
    simp only [handle]
    rcases rejectOrder_cases rt s id with h | ⟨o, -, -, -, h⟩
    · rw [h.1]; exact hs
    · rw [h]; exact hs
  | deliver id =>
    simp only [handle]
    rcases deliverOrder_cases rt env s id with h | ⟨o, -, -, -, h⟩
    · rw [h.1]; exact hs
    · rw [h]; exact hs
  | sendReferral body =>
    simp only [handle]
    rcases sendReferral_cases rt env s body with h | ⟨code, -, h⟩
    · rw [h.1]; exact hs
    · rw [h]
      intro r hr
      rcases List.mem_append.1 hr with h1 | h1
      · exact hs r h1
      · have h2 := List.mem_singleton.1 h1
        subst h2
        simp [ReferralInv, newReferral]
  | claimReward id =>
    simp only [handle]
    rcases claimReward_cases rt env s id with h | ⟨r, -, hst, -, h⟩
    · rw [h.1]; exact hs
    · rw [h]
      apply saveReferral_inv s _ ReferralInv hs
      simp [ReferralInv, hst]

theorem deliveredStore_reachable : Reachable sampleRuntime deliveredStore :=
  .step _ _ (.step _ _ (.step _ _ .empty))

theorem claimedStore_reachable : Reachable sampleRuntime claimedStore :=
  .step _ _ (.step _ _ (.step _ _ .empty))

/-- Claim C7: in every store reachable from the empty store through the API, each order
has `deliveredAt` set if and only if its status is Delivered. -/
theorem delivered_iff_deliveredAt (rt : JsRuntime) (s : Store) (h : Reachable rt s) :
    ∀ o ∈ s.orders, (o.deliveredAt ≠ none ↔ o.status = .Delivered) := by
  induction h with
  | empty => intro o ho; simp [Store.empty] at ho
  | step env req _ ih => exact handle_orderInv rt env _ req ih

/-- Witness for `delivered_iff_deliveredAt`: a reachable store holding a Delivered
order. -/
theorem delivered_iff_deliveredAt_witness :
    Reachable sampleRuntime deliveredStore ∧
    deliveredStore.orders.map (fun o => (o.status, o.deliveredAt)) =
      [(.Delivered, some 1700000000)] ∧
    ∀ o ∈ deliveredStore.orders, (o.deliveredAt ≠ none ↔ o.status = .Delivered) :=
  ⟨deliveredStore_reachable, by decide,
    delivered_iff_deliveredAt sampleRuntime deliveredStore deliveredStore_reachable⟩

/-- Claim C8: in every store reachable from the empty store through the API, each
referral with `claimed = true` is Completed, and each referral with a non-empty
discount code is Completed. -/
theorem referral_invariant (rt : JsRuntime) (s : Store) (h : Reachable rt s) :
    ∀ r ∈ s.referrals, (r.claimed = true → r.status = .Completed) ∧
      (∀ c, r.discountCode = some c → c ≠ "" → r.status = .Completed) := by
  have key : ∀ r ∈ s.referrals, ReferralInv r := by
    induction h with
    | empty => intro r hr; simp [Store.empty] at hr
    | step env req _ ih => exact handle_referralInv rt env _ req ih
  intro r hr
  refine ⟨(key r hr).1, ?_⟩
  intro c hc _
  exact (key r hr).2 (by simp [hc])

/-- Witness for `referral_invariant`: a reachable store holding a claimed referral. -/
theorem referral_invariant_witness :
    Reachable sampleRuntime claimedStore ∧
    claimedStore.referrals.map (fun r => (r.status, r.claimed, r.discountCode)) =
      [(.Completed, true, some "DISCOUNT4FZYO82M")] ∧
    ∀ r ∈ claimedStore.referrals, (r.claimed = true → r.status = .Completed) ∧
      (∀ c, r.discountCode = some c → c ≠ "" → r.status = .Completed) :=
  ⟨claimedStore_reachable, by decide,
    referral_invariant sampleRuntime claimedStore claimedStore_reachable⟩

/-! ## Identifiers of reachable stores -/

theorem handle_ids (rt : JsRuntime) (env : Env) (s : Store) (req : Request)
    (ho : ∀ o ∈ s.orders, o.id < s.nextId) (hr : ∀ r ∈ s.referrals, r.id < s.nextId) :
    (∀ o ∈ (handle rt env s req).1.orders, o.id < (handle rt env s req).1.nextId) ∧
    (∀ r ∈ (handle rt env s req).1.referrals, r.id < (handle rt env s req).1.nextId) := by
  have hnew : ∀ (body : OrderRequest) (cleaned : List CartItem),
      (∀ o ∈ (saveNewOrder env s body cleaned).orders, o.id < s.nextId + 1) ∧
      (∀ r ∈ (saveNewOrder env s body cleaned).referrals, r.id < s.nextId + 1) := by
    intro body cleaned
    constructor
    · intro o hmem
      rcases List.mem_append.1 hmem with h1 | h1
      · exact Nat.lt_succ_of_lt (ho o h1)
      · have : o = newOrder env s.nextId body cleaned := by simpa using h1
        subst this
        simp [newOrder]
    · exact fun r hmem => Nat.lt_succ_of_lt (hr r hmem)
  cases req with
  | submitOrder body =>
    simp only [handle]
    rcases submitOrder_cases rt env s body with h | ⟨cleaned, h | ⟨completed, hc, h, -⟩⟩
    · rw [h.1]; exact ⟨ho, hr⟩
    · rw [h.1]; exact hnew body cleaned
    · rw [h, (completeReferral_orders rt env _ _ completed hc).1,
        (completeReferral_orders rt env _ _ completed hc).2]
      refine ⟨(hnew body cleaned).1, ?_⟩
      intro r hmem
      rcases completeReferral_mem rt env _ _ completed hc r hmem with h1 | ⟨r0, h0, -, h1⟩
      · exact (hnew body cleaned).2 r h1
      · subst h1
        exact (hnew body cleaned).2 r0 h0
  | listPending => exact ⟨ho, hr⟩
  | listAll => exact ⟨ho, hr⟩
  | listRewards => exact ⟨ho, hr⟩
  | accept id =>
    simp only [handle]
    rcases acceptOrder_cases rt s id with h | ⟨o, hmem, -, -, h⟩
    · rw [h.1]; exact ⟨ho, hr⟩
    · rw [h]
      exact ⟨saveOrder_inv s _ (fun x => x.id < s.nextId) ho (ho o hmem), hr⟩
  | reject id =>
    simp only [handle]
    rcases rejectOrder_cases rt s id with h | ⟨o, hmem, -, -, h⟩
    · rw [h.1]; exact ⟨ho, hr⟩
    · rw [h]
      exact ⟨saveOrder_inv s _ (fun x => x.id < s.nextId) ho (ho o hmem), hr⟩
  | deliver id =>
    simp only [handle]
    rcases deliverOrder_cases rt env s id with h | ⟨o, hmem, -, -, h⟩
    · rw [h.1]; exact ⟨ho, hr⟩
    · rw [h]
      exact ⟨saveOrder_inv s _ (fun x => x.id < s.nextId) ho (ho o hmem), hr⟩
  | sendReferral body =>
    simp only [handle]
    rcases sendReferral_cases rt env s body with h | ⟨code, -, h⟩
    · rw [h.1]; exact ⟨ho, hr⟩
    · rw [h]
      constructor
      · exact fun o hmem => Nat.lt_succ_of_lt (ho o hmem)
      · intro r hmem
        rcases List.mem_append.1 hmem with h1 | h1
        · exact Nat.lt_succ_of_lt (hr r h1)
        · have h2 := List.mem_singleton.1 h1
          subst h2
          simp [newReferral]
  | claimReward id =>
    simp only [handle]
    rcases claimReward_cases rt env s id with h | ⟨r, hmem, -, -, h⟩
    · rw [h.1]; exact ⟨ho, hr⟩
    · rw [h]
      exact ⟨ho, saveReferral_inv s _ (fun x => x.id < s.nextId) hr (hr r hmem)⟩

/-- In a reachable store every identifier in use is below the counter, so the next
identifier handed out is fresh. -/
theorem reachable_ids_lt (rt : JsRuntime) (s : Store) (h : Reachable rt s) :
    (∀ o ∈ s.orders, o.id < s.nextId) ∧ (∀ r ∈ s.referrals, r.id < s.nextId) := by
  induction h with
  | empty => simp [Store.empty]
  | step env req _ ih => exact handle_ids rt env _ req ih.1 ih.2

/-- On a reachable store, a valid submission whose cart items can all be read and
printed, whose order document the schema accepts and whose referral lookup resolves, is
stored as exactly one Pending, undelivered order under the returned id. -/
theorem submitOrder_persists_reachable (rt : JsRuntime) (env : Env) (s : Store)
    (req : OrderRequest) (cleaned : List CartItem) (completed : Store)
    (hs : Reachable rt s)
    (hv : validateOrder req = .passed) (hc : cleanCartItems rt req.cartItems = some cleaned)
    (hschema : schemaAcceptsOrder rt (newOrder env s.nextId req cleaned) = true)
    (hcomp : completeReferral rt env (saveNewOrder env s req cleaned) req.referralCode =
      some completed)
    (hb : emailBodyBuilds req = true) :
    (submitOrder rt env s req).2 = ⟨200, .orderPlaced "Order placed successfully" s.nextId⟩ ∧
    ∃ o : Order, o.id = s.nextId ∧ o.status = .Pending ∧ o.deliveredAt = none ∧
      (submitOrder rt env s req).1.orders.filter (fun x => x.id == s.nextId) = [o] ∧
      o ∈ listAll (submitOrder rt env s req).1 ∧
      o ∈ listPending (submitOrder rt env s req).1 :=
  submitOrder_persists rt env s req cleaned completed hv hc hschema hcomp hb
    (fun o ho => Nat.ne_of_lt ((reachable_ids_lt rt s hs).1 o ho))

end AbdulChicken
